import Mathlib

/-!
Shallow embedding of the SDD threat-scoring / aggregation / motion pipeline.

Python floats are modelled as exact rationals (`ℚ`) for every value the code
obtains by field arithmetic, and as exact reals (`ℝ`) for the values that pass
through a square root (`** 0.5`, `math.hypot`), which is exact real `Real.sqrt`
here.  String labels are Lean `String`s.  Python `dict`s are modelled as
insertion-ordered association lists.
-/

namespace SDD

/-- Embeds `FrameGeometry` from `src/sdd/threat_utils.py` (width/height are
Python ints). -/
structure FrameGeometry where
  width : ℤ
  height : ℤ

/-- Embeds the `FrameGeometry.area` property:
`float(max(0, self.width) * max(0, self.height))`. -/
def FrameGeometry.area (f : FrameGeometry) : ℚ :=
  ((max 0 f.width * max 0 f.height : ℤ) : ℚ)

/-- Models Python `str.strip` (ASCII whitespace) over the character list. -/
def pyStrip (s : String) : String :=
  ⟨((s.data.dropWhile Char.isWhitespace).reverse.dropWhile Char.isWhitespace).reverse⟩

/-- Models Python `str.lower` over the character list. -/
def pyLower (s : String) : String :=
  ⟨s.data.map Char.toLower⟩

/-- Embeds `classify_label_safety` from `src/sdd/threat_utils.py`; the Python
`(label or "").strip().lower()` normalization is `pyLower (pyStrip label)`
(`label` is a total `String` here, so the `or ""` None-guard is vacuous). -/
def classify_label_safety (label : String) : String :=
  let name := pyLower (pyStrip label)
  let dangerous_keywords : List String :=
    ["airplane", "helicopter", "bird", "kite", "balloon", "drone",
     "paraglider", "hang glider"]
  let medium_keywords : List String :=
    ["car", "truck", "bus", "train", "boat", "ship", "motorcycle",
     "bicycle", "parking meter"]
  if name ∈ dangerous_keywords then "danger"
  else if name ∈ medium_keywords then "medium"
  else "safe"

/-- Result quadruple `(threat_score, threat_level, area, area_norm)` returned
by both threat computations. -/
structure ThreatResult where
  threat_score : ℝ
  threat_level : String
  area : ℚ
  area_norm : ℚ

/-- Embeds `compute_threat_metrics` from `src/sdd/threat_utils.py`
(lines 60–125), with `** 0.5` modelled as `Real.sqrt`. -/
noncomputable def compute_threat_metrics (label : String)
    (score x1 y1 x2 y2 : ℚ) (frame : FrameGeometry) : ThreatResult :=
  let frame_area : ℚ := frame.area
  let area : ℚ := max 0 ((x2 - x1) * (y2 - y1))
  let area_norm : ℚ := if frame_area > 0 then area / frame_area else 0
  let proximity : ℝ :=
    if frame.width > 0 ∧ frame.height > 0 then
      let cx : ℚ := ((x1 + x2) / 2) / (frame.width : ℚ)
      let cy : ℚ := ((y1 + y2) / 2) / (frame.height : ℚ)
      let dx : ℚ := cx - 0.5
      let dy : ℚ := cy - 0.5
      let dist_center : ℝ := Real.sqrt ((dx * dx + dy * dy : ℚ) : ℝ)
      1 - min (dist_center / 0.5) 1
    else 0
  let safety := classify_label_safety label
  let safety_bias : ℚ :=
    if safety = "danger" then 0.20 else if safety = "medium" then 0.10 else 0
  let score_clamped : ℚ := max 0 (min 1 score)
  let area_term : ℚ := max 0 (min 1 (area_norm * 4))
  let proximity_term : ℝ := max 0 (min 1 proximity)
  let threat_score : ℝ :=
    0.55 * (score_clamped : ℝ) + 0.25 * (area_term : ℝ)
      + 0.10 * proximity_term + 0.10 * (safety_bias : ℝ)
  let threat_score : ℝ := max 0 (min 1 threat_score)
  let threat_level : String :=
    if threat_score ≥ 0.65 then "high"
    else if threat_score ≥ 0.35 then "medium"
    else "low"
  ⟨threat_score, threat_level, area, area_norm⟩

/-- Embeds the inline `_compute_threat` closure of `YoloDetector.detect` in
`src/sdd/detector.py` (lines 76–111); `width`, `height` and `frame_area` are
the closure's captured values, with
`frame_area = float(width * height) if width > 0 and height > 0 else 0.0`. -/
noncomputable def _compute_threat (width height : ℤ)
    (x1 y1 x2 y2 score : ℚ) : ThreatResult :=
  let frame_area : ℚ :=
    if width > 0 ∧ height > 0 then ((width * height : ℤ) : ℚ) else 0
  let area : ℚ := max 0 ((x2 - x1) * (y2 - y1))
  let area_norm : ℚ := if frame_area > 0 then area / frame_area else 0
  let proximity : ℝ :=
    if width > 0 ∧ height > 0 then
      let cx : ℚ := ((x1 + x2) / 2) / (width : ℚ)
      let cy : ℚ := ((y1 + y2) / 2) / (height : ℚ)
      let dx : ℚ := cx - 0.5
      let dy : ℚ := cy - 0.5
      let dist_center : ℝ := Real.sqrt ((dx * dx + dy * dy : ℚ) : ℝ)
      1 - min (dist_center / 0.5) 1
    else 0
  let threat_score : ℝ :=
    0.6 * (max 0 (min 1 score) : ℝ)
      + 0.3 * (max 0 (min 1 (area_norm * 4)) : ℝ)
      + 0.1 * (max 0 (min 1 proximity))
  let threat_level : String :=
    if threat_score ≥ 0.6 then "high"
    else if threat_score ≥ 0.3 then "medium"
    else "low"
  ⟨threat_score, threat_level, area, area_norm⟩

/-- Spec-side clamp into `[0,1]` (`clamp(x, 0, 1)` of the spec). -/
def clamp01 (x : ℝ) : ℝ := max 0 (min 1 x)

/-- Spec-side box area (spec §4.1): the raw area clamped to `0` below. -/
def boxArea (x1 y1 x2 y2 : ℚ) : ℚ := max 0 ((x2 - x1) * (y2 - y1))

/-- Spec-side normalized area (spec §4.1): `area / frame_area`, `0` when the
frame area is `0`. -/
def areaNormGeom (x1 y1 x2 y2 : ℚ) (frame : FrameGeometry) : ℚ :=
  if frame.area > 0 then boxArea x1 y1 x2 y2 / frame.area else 0

/-- Spec-side center proximity (spec §4.1): `1 - min(dist/0.5, 1)` over the
Euclidean distance between the normalized box center and `(0.5, 0.5)`; `0`
for a frame with a non-positive dimension (degenerate inputs are clamped). -/
noncomputable def centerProximity (x1 y1 x2 y2 : ℚ) (frame : FrameGeometry) : ℝ :=
  if frame.width > 0 ∧ frame.height > 0 then
    let dx : ℚ := ((x1 + x2) / 2) / (frame.width : ℚ) - 0.5
    let dy : ℚ := ((y1 + y2) / 2) / (frame.height : ℚ) - 0.5
    1 - min (Real.sqrt ((dx * dx + dy * dy : ℚ) : ℝ) / 0.5) 1
  else 0

/-- Spec-side safety bias (spec §4.3 step 4): `0.20` for danger labels,
`0.10` for medium labels, `0` otherwise. -/
def safetyBias (label : String) : ℚ :=
  if classify_label_safety label = "danger" then 0.20
  else if classify_label_safety label = "medium" then 0.10
  else 0

/-- Spec-side threat score (spec §4.3 step 5). -/
noncomputable def threatScoreSpec (label : String) (score x1 y1 x2 y2 : ℚ)
    (frame : FrameGeometry) : ℝ :=
  clamp01 (0.55 * clamp01 ((score : ℚ) : ℝ)
    + 0.25 * clamp01 ((areaNormGeom x1 y1 x2 y2 frame * 4 : ℚ) : ℝ)
    + 0.10 * clamp01 (centerProximity x1 y1 x2 y2 frame)
    + 0.10 * ((safetyBias label : ℚ) : ℝ))

/-- Discretization of a score by the `0.65` / `0.35` thresholds, characterized
as three mutually exclusive level equations. -/
lemma levelChain (ts : ℝ) :
    ((if ts ≥ 0.65 then "high" else if ts ≥ 0.35 then "medium" else "low") = "high"
        ↔ ts ≥ 0.65)
    ∧ ((if ts ≥ 0.65 then "high" else if ts ≥ 0.35 then "medium" else "low") = "medium"
        ↔ (0.35 ≤ ts ∧ ts < 0.65))
    ∧ ((if ts ≥ 0.65 then "high" else if ts ≥ 0.35 then "medium" else "low") = "low"
        ↔ ts < 0.35) := by
  split_ifs with h1 h2 <;> refine ⟨?_, ?_, ?_⟩ <;> simp <;>
    first
    | linarith
    | (constructor <;> linarith)
    | (intro h; linarith)

/-- The threat level of `compute_threat_metrics` is its threat score pushed
through the `0.65` / `0.35` if-chain. -/
lemma ctm_level (label : String) (score x1 y1 x2 y2 : ℚ) (frame : FrameGeometry) :
    (compute_threat_metrics label score x1 y1 x2 y2 frame).threat_level
      = (if (compute_threat_metrics label score x1 y1 x2 y2 frame).threat_score ≥ 0.65
          then "high"
          else if (compute_threat_metrics label score x1 y1 x2 y2 frame).threat_score ≥ 0.35
          then "medium" else "low") := rfl

/-- C1: for every label, confidence, box and frame geometry, the threat scorer
returns `threat_score = clamp(0.55*clamp(confidence,0,1) + 0.25*clamp(area_norm*4,0,1)
+ 0.10*clamp(center_proximity,0,1) + 0.10*safety_bias, 0, 1)` with the safety bias
`0.20` / `0.10` / `0` by label class, and `threat_level` is `"high"` iff the score
is `≥ 0.65`, `"medium"` iff it is in `[0.35, 0.65)`, else `"low"`; in particular for
label `"car"`, confidence `0.5` and a box of normalized area `0.1` centered in a
`100×100` frame it returns score `0.485` and level `"medium"`. -/
theorem C1_threat_scorer :
    (∀ (label : String) (score x1 y1 x2 y2 : ℚ) (frame : FrameGeometry),
      (compute_threat_metrics label score x1 y1 x2 y2 frame).threat_score
          = threatScoreSpec label score x1 y1 x2 y2 frame
        ∧ ((compute_threat_metrics label score x1 y1 x2 y2 frame).threat_level = "high"
            ↔ (compute_threat_metrics label score x1 y1 x2 y2 frame).threat_score ≥ 0.65)
        ∧ ((compute_threat_metrics label score x1 y1 x2 y2 frame).threat_level = "medium"
            ↔ (0.35 ≤ (compute_threat_metrics label score x1 y1 x2 y2 frame).threat_score
                ∧ (compute_threat_metrics label score x1 y1 x2 y2 frame).threat_score < 0.65))
        ∧ ((compute_threat_metrics label score x1 y1 x2 y2 frame).threat_level = "low"
            ↔ (compute_threat_metrics label score x1 y1 x2 y2 frame).threat_score < 0.35))
    ∧ (compute_threat_metrics "car" (1/2) 30 (75/2) 70 (125/2) ⟨100, 100⟩).threat_score
        = 0.485
    ∧ (compute_threat_metrics "car" (1/2) 30 (75/2) 70 (125/2) ⟨100, 100⟩).threat_level
        = "medium"
    ∧ (compute_threat_metrics "car" (1/2) 30 (75/2) 70 (125/2) ⟨100, 100⟩).area_norm
        = 1/10 := by
  refine ⟨fun label score x1 y1 x2 y2 frame => ⟨?_, ?_⟩, ?_, ?_, ?_⟩
  · simp only [compute_threat_metrics, threatScoreSpec, areaNormGeom, boxArea,
      centerProximity, clamp01, safetyBias]
    push_cast
    ring_nf
  · rw [ctm_level]
    exact levelChain _
  · have hne : ("medium" : String) ≠ "danger" := by decide
    simp only [compute_threat_metrics, FrameGeometry.area,
      show classify_label_safety "car" = "medium" from by decide]
    norm_num [Real.sqrt_eq_zero, hne]
  · have hne : ("medium" : String) ≠ "danger" := by decide
    simp only [compute_threat_metrics, FrameGeometry.area,
      show classify_label_safety "car" = "medium" from by decide]
    norm_num [Real.sqrt_eq_zero, hne]
  · simp only [compute_threat_metrics, FrameGeometry.area]
    norm_num

/-- The two frame-area computations agree: `threat_utils.FrameGeometry.area`
is `max(0,w)*max(0,h)` and `detector.py` uses `w*h if w>0 and h>0 else 0`. -/
lemma frame_area_cases (w h : ℤ) :
    ((max 0 w * max 0 h : ℤ) : ℚ) = (if w > 0 ∧ h > 0 then ((w * h : ℤ) : ℚ) else 0) := by
  by_cases hw : w > 0 <;> by_cases hh : h > 0
  · simp [hw, hh, max_eq_right hw.le, max_eq_right hh.le]
  · simp [hh, max_eq_left (le_of_not_lt hh)]
  · simp [hw, max_eq_left (le_of_not_lt hw)]
  · simp [hw, max_eq_left (le_of_not_lt hw)]

/-- C2 counterexample: at label `"car"`, confidence `0.5`, the box
`(30, 37.5, 70, 62.5)` and a `100×100` frame, the detector's inline
`_compute_threat` yields threat score `0.52` (weights `0.6/0.3/0.1`, no safety
bias) while `compute_threat_metrics` yields `0.485`, so the two results differ. -/
theorem C2_counterexample :
    compute_threat_metrics "car" (1/2) 30 (75/2) 70 (125/2) ⟨100, 100⟩
      ≠ _compute_threat 100 100 30 (75/2) 70 (125/2) (1/2) := by
  intro h
  have h2 := congrArg ThreatResult.threat_score h
  have ha : (compute_threat_metrics "car" (1/2) 30 (75/2) 70 (125/2)
      ⟨100, 100⟩).threat_score = 0.485 := by
    have hne : ("medium" : String) ≠ "danger" := by decide
    simp only [compute_threat_metrics, FrameGeometry.area,
      show classify_label_safety "car" = "medium" from by decide]
    norm_num [Real.sqrt_eq_zero, hne]
  have hb : (_compute_threat 100 100 30 (75/2) 70 (125/2) (1/2)).threat_score
      = 0.52 := by
    simp only [_compute_threat]
    norm_num [Real.sqrt_eq_zero]
  rw [ha, hb] at h2
  norm_num at h2

/-- C2 amended: for identical inputs the detector's inline `_compute_threat`
and `compute_threat_metrics` agree on the `area` and `area_norm` components of
the result, but not on `threat_score`/`threat_level` (the detector uses weights
`0.6/0.3/0.1` with no safety bias, no final clamp, and thresholds `0.6/0.3`). -/
theorem C2_amended :
    ∀ (label : String) (score x1 y1 x2 y2 : ℚ) (w h : ℤ),
      (compute_threat_metrics label score x1 y1 x2 y2 ⟨w, h⟩).area
          = (_compute_threat w h x1 y1 x2 y2 score).area
        ∧ (compute_threat_metrics label score x1 y1 x2 y2 ⟨w, h⟩).area_norm
          = (_compute_threat w h x1 y1 x2 y2 score).area_norm := by
  intro label score x1 y1 x2 y2 w h
  refine ⟨rfl, ?_⟩
  simp only [compute_threat_metrics, _compute_threat, FrameGeometry.area]
  rw [frame_area_cases]

/-- C5 counterexample: for a `20×20` box in a `10×10` frame the frame area is
positive but `area_norm = 4 > 1` — the code never clamps `area_norm` to `[0,1]`. -/
theorem C5_counterexample :
    (0 : ℚ) < FrameGeometry.area ⟨10, 10⟩
      ∧ (compute_threat_metrics "person" 0 0 0 20 20 ⟨10, 10⟩).area_norm = 4
      ∧ ¬ (compute_threat_metrics "person" 0 0 0 20 20 ⟨10, 10⟩).area_norm ≤ 1 := by
  refine ⟨by norm_num [FrameGeometry.area], ?_, ?_⟩ <;>
    simp only [compute_threat_metrics, FrameGeometry.area] <;> norm_num

/-- C5 amended: `area_norm` is always nonnegative, equals `0` when the frame
area is `0` (no division by zero), and lies in `[0,1]` whenever the frame area
is positive and the box area does not exceed the frame area; a box larger than
the frame produces `area_norm > 1`. -/
theorem C5_amended :
    ∀ (label : String) (score x1 y1 x2 y2 : ℚ) (frame : FrameGeometry),
      0 ≤ (compute_threat_metrics label score x1 y1 x2 y2 frame).area_norm
        ∧ (frame.area = 0
            → (compute_threat_metrics label score x1 y1 x2 y2 frame).area_norm = 0)
        ∧ (0 < frame.area
            → (compute_threat_metrics label score x1 y1 x2 y2 frame).area ≤ frame.area
            → (compute_threat_metrics label score x1 y1 x2 y2 frame).area_norm ≤ 1) := by
  intro label score x1 y1 x2 y2 frame
  refine ⟨?_, ?_, ?_⟩
  · simp only [compute_threat_metrics]
    split_ifs with hfa
    · exact div_nonneg (le_max_left 0 _) hfa.le
    · exact le_refl 0
  · intro h0
    simp only [compute_threat_metrics]
    rw [if_neg (by rw [h0]; exact lt_irrefl 0)]
  · intro hpos harea
    simp only [compute_threat_metrics] at harea ⊢
    rw [if_pos hpos]
    exact (div_le_one hpos).mpr harea

/-- C5 witness: a `10×10` box in a `100×100` frame has positive frame area and
box area below the frame area, so the amended bound gives `area_norm ≤ 1`. -/
theorem C5_witness :
    (compute_threat_metrics "person" 0 0 0 10 10 ⟨100, 100⟩).area_norm ≤ 1 :=
  (C5_amended "person" 0 0 0 10 10 ⟨100, 100⟩).2.2
    (by norm_num [FrameGeometry.area])
    (by simp only [compute_threat_metrics, FrameGeometry.area]; norm_num)

/-- C6 counterexample: the fully inverted box `(10, 10, 0, 0)` has
`x2 ≤ x1` and `y2 ≤ y1` yet its computed area is `100`, not `0`: the
`max(0, (x2-x1)*(y2-y1))` clamp does not zero a box inverted on both axes. -/
theorem C6_counterexample :
    ((0 : ℚ) ≤ 10)
      ∧ (compute_threat_metrics "person" 0 10 10 0 0 ⟨100, 100⟩).area = 100
      ∧ (compute_threat_metrics "person" 0 10 10 0 0 ⟨100, 100⟩).area ≠ 0 := by
  refine ⟨by norm_num, ?_, ?_⟩ <;>
    simp only [compute_threat_metrics] <;> norm_num

/-- C6 amended: the computed box area is always `≥ 0`, and it is `0` exactly
when `(x2-x1)*(y2-y1) ≤ 0`; a box degenerate or inverted in exactly one axis
clamps to `0`, but a box inverted in both axes gets the positive product. -/
theorem C6_amended :
    ∀ (label : String) (score x1 y1 x2 y2 : ℚ) (frame : FrameGeometry),
      0 ≤ (compute_threat_metrics label score x1 y1 x2 y2 frame).area
        ∧ ((compute_threat_metrics label score x1 y1 x2 y2 frame).area = 0
            ↔ (x2 - x1) * (y2 - y1) ≤ 0) := by
  intro label score x1 y1 x2 y2 frame
  exact ⟨le_max_left 0 _, by simp only [compute_threat_metrics]; exact sup_eq_left⟩

/-- Embeds the `Detection` record of `src/sdd/detector.py` (also the row
schema of `detections.csv`); Python floats are exact rationals here. -/
structure Det where
  frame_index : ℤ
  timestamp : ℚ
  x1 : ℚ
  y1 : ℚ
  x2 : ℚ
  y2 : ℚ
  score : ℚ
  label : String
  area : ℚ
  area_norm : ℚ
  threat_score : ℚ
  threat_level : String
deriving DecidableEq

/-- Embeds the per-label stats dict built by `save_events_summary` in
`src/sdd/io_utils.py` (lines 84–96), with the `threat_level_counts` inner dict
flattened into its three fixed keys. -/
structure Agg where
  count : ℕ
  first_frame_index : ℤ
  last_frame_index : ℤ
  first_timestamp : ℚ
  last_timestamp : ℚ
  min_score : ℚ
  max_score : ℚ
  score_sum : ℚ
  max_threat_score : ℚ
  threat_score_sum : ℚ
  low_count : ℕ
  medium_count : ℕ
  high_count : ℕ
deriving DecidableEq

/-- Embeds the fresh-stats initialization for a label's first detection
(`io_utils.py` lines 84–96): count and sums start at `0`, extrema at the
detection's own values. -/
def Agg.init (d : Det) : Agg :=
  ⟨0, d.frame_index, d.frame_index, d.timestamp, d.timestamp,
   d.score, d.score, 0, d.threat_score, 0, 0, 0, 0⟩

/-- Embeds one pass of the per-detection update block of `save_events_summary`
(`io_utils.py` lines 99–122). -/
def Agg.step (s : Agg) (d : Det) : Agg where
  count := s.count + 1
  first_frame_index :=
    if d.frame_index < s.first_frame_index then d.frame_index else s.first_frame_index
  last_frame_index :=
    if d.frame_index > s.last_frame_index then d.frame_index else s.last_frame_index
  first_timestamp :=
    if d.timestamp < s.first_timestamp then d.timestamp else s.first_timestamp
  last_timestamp :=
    if d.timestamp > s.last_timestamp then d.timestamp else s.last_timestamp
  min_score := if d.score < s.min_score then d.score else s.min_score
  max_score := if d.score > s.max_score then d.score else s.max_score
  score_sum := s.score_sum + d.score
  max_threat_score :=
    if d.threat_score > s.max_threat_score then d.threat_score else s.max_threat_score
  threat_score_sum := s.threat_score_sum + d.threat_score
  low_count := if d.threat_level = "low" then s.low_count + 1 else s.low_count
  medium_count := if d.threat_level = "medium" then s.medium_count + 1 else s.medium_count
  high_count := if d.threat_level = "high" then s.high_count + 1 else s.high_count

/-- Replaces the value stored under the first occurrence of a key in an
insertion-ordered association list (a Python dict update at an existing key). -/
def updateFirst : List (String × Agg) → String → Agg → List (String × Agg)
  | [], _, _ => []
  | q :: rest, l, a => if q.1 = l then (l, a) :: rest else q :: updateFirst rest l a

/-- Embeds one iteration of the detection loop of `save_events_summary`:
look the label up, initialize it on first sight, then apply the update block. -/
def observe (stats : List (String × Agg)) (d : Det) : List (String × Agg) :=
  match stats.lookup d.label with
  | some s => updateFirst stats d.label (s.step d)
  | none => stats ++ [(d.label, (Agg.init d).step d)]

/-- Embeds the whole stats-building loop of `save_events_summary`
(`io_utils.py` lines 80–122): fold the detections in arrival order into the
insertion-ordered per-label dict. -/
def aggregate (dets : List Det) : List (String × Agg) :=
  dets.foldl observe []

/-- Embeds the dominant-level computation of `save_events_summary`
(`io_utils.py` lines 134–138): Python `max(("low","medium","high"), key=...)`
scans in the fixed order and keeps the first strictly greater tally, so the
earliest maximal level wins. -/
def dominant_level (lo me hi : ℕ) : String :=
  let best := ("low", lo)
  let best := if me > best.2 then ("medium", me) else best
  let best := if hi > best.2 then ("high", hi) else best
  best.1

/-- The tally of one of the three levels, `0` for any other string
(Python `level_counts.get(lvl, 0)`). -/
def countOf (lo me hi : ℕ) (l : String) : ℕ :=
  if l = "low" then lo else if l = "medium" then me else if l = "high" then hi else 0

/-- Embeds one output row of `save_events_summary` (`io_utils.py`
lines 139–154), including the guarded means. -/
structure SummaryRow where
  label : String
  count : ℕ
  first_frame_index : ℤ
  last_frame_index : ℤ
  first_timestamp : ℚ
  last_timestamp : ℚ
  min_score : ℚ
  max_score : ℚ
  mean_score : ℚ
  max_threat_score : ℚ
  mean_threat_score : ℚ
  dominant_threat_level : String
deriving DecidableEq

/-- Builds the row written for one label (`io_utils.py` lines 127–154). -/
def mkSummaryRow (l : String) (s : Agg) : SummaryRow :=
  ⟨l, s.count, s.first_frame_index, s.last_frame_index,
   s.first_timestamp, s.last_timestamp, s.min_score, s.max_score,
   (if s.count > 0 then s.score_sum / (s.count : ℚ) else 0),
   s.max_threat_score,
   (if s.count > 0 then s.threat_score_sum / (s.count : ℚ) else 0),
   dominant_level s.low_count s.medium_count s.high_count⟩

/-- Embeds `save_events_summary` as the list of data rows it writes: empty
input writes the header only (no rows); otherwise one row per label, labels
sorted ascending (`io_utils.py` lines 72–76 and 124–154). -/
def save_events_summary (dets : List Det) : List SummaryRow :=
  if dets.isEmpty then []
  else
    let stats := aggregate dets
    ((stats.map Prod.fst).insertionSort (· ≤ ·)).filterMap
      (fun l => (stats.lookup l).map (mkSummaryRow l))

/-- C4: the dominant threat level is the first level in the fixed order
(low, medium, high) whose tally is maximal, so on ties the earlier level of
that order wins (low over medium over high); in particular tallies
`{low: 2, medium: 2, high: 0}` resolve to `"low"`. -/
theorem C4_dominant_level :
    (∀ lo me hi : ℕ,
      (["low", "medium", "high"].find? (fun l =>
          ["low", "medium", "high"].all (fun l2 =>
            decide (countOf lo me hi l2 ≤ countOf lo me hi l))))
        = some (dominant_level lo me hi))
    ∧ dominant_level 2 2 0 = "low" := by
  refine ⟨fun lo me hi => ?_, by decide⟩
  by_cases h1 : me > lo <;> by_cases h2 : hi > lo <;> by_cases h3 : hi > me <;>
    simp [dominant_level, countOf, List.find?, List.all, h1, h2, h3] <;>
    (repeat' split) <;> simp_all <;> omega

/-- Total per-label detection count held by the stats dict. -/
def sumCounts (stats : List (String × Agg)) : ℕ :=
  (stats.map (fun p => p.2.count)).sum

/-- Observing a detection whose label differs from the head entry leaves the
head entry untouched. -/
lemma observe_cons_ne (q : String × Agg) (rest : List (String × Agg)) (d : Det)
    (he : q.1 ≠ d.label) : observe (q :: rest) d = q :: observe rest d := by
  obtain ⟨l0, a0⟩ := q
  simp only at he
  unfold observe
  rw [show (((l0, a0) :: rest).lookup d.label) = rest.lookup d.label from by
    simp [List.lookup, beq_eq_false_iff_ne.mpr (Ne.symm he)]]
  cases h : rest.lookup d.label <;> simp [updateFirst, he]

/-- Observing a detection whose label matches the head entry steps the head
entry in place. -/
lemma observe_cons_eq (q : String × Agg) (rest : List (String × Agg)) (d : Det)
    (he : q.1 = d.label) : observe (q :: rest) d = (d.label, q.2.step d) :: rest := by
  obtain ⟨l0, a0⟩ := q
  simp only at he
  unfold observe
  rw [show (((l0, a0) :: rest).lookup d.label) = some a0 from by
    simp [List.lookup, beq_iff_eq, he.symm]]
  simp [updateFirst, he]

/-- One observation grows the total count by exactly one. -/
lemma sumCounts_observe (stats : List (String × Agg)) (d : Det) :
    sumCounts (observe stats d) = sumCounts stats + 1 := by
  induction stats with
  | nil => simp [observe, sumCounts, Agg.step, Agg.init, List.lookup]
  | cons q rest ih =>
    by_cases he : q.1 = d.label
    · rw [observe_cons_eq q rest d he]
      simp [sumCounts, Agg.step]
      omega
    · rw [observe_cons_ne q rest d he]
      simp only [sumCounts, List.map_cons, List.sum_cons] at ih ⊢
      omega

/-- Folding a batch of detections grows the total count by the batch length. -/
lemma sumCounts_foldl (dets : List Det) :
    ∀ stats : List (String × Agg),
      sumCounts (dets.foldl observe stats) = sumCounts stats + dets.length := by
  induction dets with
  | nil => intro stats; simp
  | cons d rest ih =>
    intro stats
    simp only [List.foldl_cons, List.length_cons, ih, sumCounts_observe]
    omega

/-- Well-formedness of one label aggregate: the first-seen frame index and
timestamp do not exceed the last-seen ones. -/
def AggWF (a : Agg) : Prop :=
  a.first_frame_index ≤ a.last_frame_index ∧ a.first_timestamp ≤ a.last_timestamp

/-- The update block preserves aggregate well-formedness. -/
lemma AggWF.step (s : Agg) (d : Det) (h : AggWF s) : AggWF (s.step d) := by
  obtain ⟨h1, h2⟩ := h
  constructor <;> simp only [Agg.step] <;> split_ifs <;> linarith

/-- A freshly initialized and stepped aggregate is well-formed. -/
lemma AggWF.init_step (d : Det) : AggWF ((Agg.init d).step d) :=
  AggWF.step _ _ (by constructor <;> simp [Agg.init])

/-- One observation preserves well-formedness of every stored aggregate. -/
lemma AggWF.observe (d : Det) :
    ∀ stats : List (String × Agg), (∀ p ∈ stats, AggWF p.2)
      → ∀ p ∈ SDD.observe stats d, AggWF p.2 := by
  intro stats
  induction stats with
  | nil =>
    intro _ p hp
    simp only [SDD.observe, List.lookup, List.nil_append, List.mem_singleton] at hp
    rw [hp]
    exact AggWF.init_step d
  | cons q rest ih =>
    intro h p hp
    by_cases he : q.1 = d.label
    · rw [observe_cons_eq q rest d he] at hp
      rcases List.mem_cons.mp hp with hph | hpt
      · rw [hph]
        exact AggWF.step _ _ (h q (List.mem_cons_self q rest))
      · exact h p (List.mem_cons_of_mem q hpt)
    · rw [observe_cons_ne q rest d he] at hp
      rcases List.mem_cons.mp hp with hph | hpt
      · rw [hph]
        exact h q (List.mem_cons_self q rest)
      · exact ih (fun r hr => h r (List.mem_cons_of_mem q hr)) p hpt

/-- Folding a batch of detections preserves well-formedness of every stored
aggregate. -/
lemma AggWF.foldl (dets : List Det) :
    ∀ stats : List (String × Agg), (∀ p ∈ stats, AggWF p.2)
      → ∀ p ∈ dets.foldl SDD.observe stats, AggWF p.2 := by
  induction dets with
  | nil => intro stats h; simpa using h
  | cons d rest ih =>
    intro stats h
    simp only [List.foldl_cons]
    exact ih _ (AggWF.observe d stats h)

/-- C8: after the aggregator consumes N detections the per-label counts sum
to N, and every label aggregate satisfies
`first_frame_index ≤ last_frame_index` and `first_timestamp ≤ last_timestamp`. -/
theorem C8_aggregator_invariants :
    ∀ dets : List Det,
      sumCounts (aggregate dets) = dets.length
        ∧ ∀ p ∈ aggregate dets,
            p.2.first_frame_index ≤ p.2.last_frame_index
              ∧ p.2.first_timestamp ≤ p.2.last_timestamp := by
  intro dets
  constructor
  · simpa [sumCounts] using sumCounts_foldl dets []
  · exact fun p hp => AggWF.foldl dets [] (by simp) p hp

/-- A concrete two-detection single-label stream used to instantiate the
aggregator invariants. -/
def c8dets : List Det :=
  [⟨0, 0, 0, 0, 10, 10, 1/2, "drone", 100, 1/100, 7/10, "high"⟩,
   ⟨3, 1/2, 0, 0, 10, 10, 9/10, "drone", 100, 1/100, 7/10, "high"⟩]

/-- The aggregate the concrete stream produces for its single label. -/
def c8agg : Agg :=
  ((Agg.init ⟨0, 0, 0, 0, 10, 10, 1/2, "drone", 100, 1/100, 7/10, "high"⟩).step
      ⟨0, 0, 0, 0, 10, 10, 1/2, "drone", 100, 1/100, 7/10, "high"⟩).step
    ⟨3, 1/2, 0, 0, 10, 10, 9/10, "drone", 100, 1/100, 7/10, "high"⟩

/-- C8 witness: the concrete two-detection stream has total count two and an
ordered frame-index range for its label aggregate. -/
theorem C8_aggregator_invariants_witness :
    sumCounts (aggregate c8dets) = 2
      ∧ c8agg.first_frame_index ≤ c8agg.last_frame_index := by
  refine ⟨(C8_aggregator_invariants c8dets).1, ?_⟩
  refine ((C8_aggregator_invariants c8dets).2 ("drone", c8agg) ?_).1
  rw [show aggregate c8dets = [("drone", c8agg)] from rfl]
  exact List.mem_singleton.mpr rfl

/-- The sort key used by both motion tools: Python
`sorted(rows, key=lambda r: (timestamp, frame_index))`, as the non-strict
lexicographic order on `(timestamp, frame_index)` (a stable sort with this
total preorder reproduces Python's stable ascending sort). -/
def rowLe (a b : Det) : Prop :=
  a.timestamp < b.timestamp
    ∨ (a.timestamp = b.timestamp ∧ a.frame_index ≤ b.frame_index)

instance : DecidableRel rowLe := fun a b =>
  inferInstanceAs (Decidable (a.timestamp < b.timestamp
    ∨ (a.timestamp = b.timestamp ∧ a.frame_index ≤ b.frame_index)))

instance : IsTotal Det rowLe :=
  ⟨fun a b => by
    unfold rowLe
    rcases lt_trichotomy a.timestamp b.timestamp with h | h | h
    · exact Or.inl (Or.inl h)
    · rcases le_total a.frame_index b.frame_index with hf | hf
      · exact Or.inl (Or.inr ⟨h, hf⟩)
      · exact Or.inr (Or.inr ⟨h.symm, hf⟩)
    · exact Or.inr (Or.inl h)⟩

instance : IsTrans Det rowLe :=
  ⟨fun a b c hab hbc => by
    unfold rowLe at hab hbc ⊢
    rcases hab with h1 | ⟨h1, h1f⟩ <;> rcases hbc with h2 | ⟨h2, h2f⟩
    · exact Or.inl (h1.trans h2)
    · exact Or.inl (h2 ▸ h1)
    · exact Or.inl (h1 ▸ h2)
    · exact Or.inr ⟨h1.trans h2, h1f.trans h2f⟩⟩

/-- The stable ascending sort of a label's rows by `(timestamp, frame_index)`
(the `rows_sorted` of both motion tools). -/
def sortRows (rows : List Det) : List Det :=
  List.insertionSort rowLe rows

/-- Consecutive pairs of a list: Python `zip(rows_sorted, rows_sorted[1:])`. -/
def pairsOf (l : List Det) : List (Det × Det) :=
  l.zip l.tail

/-- The distinct labels of the detections in first-occurrence order: the key
iteration order of the Python `defaultdict(list)` built by both motion tools. -/
def labelsInOrder (rows : List Det) : List String :=
  rows.foldl (fun acc d => if d.label ∈ acc then acc else acc ++ [d.label]) []

/-- One label's slice of the detection list in arrival order (`by_label`). -/
def rowsOf (rows : List Det) (l : String) : List Det :=
  rows.filter (fun d => decide (d.label = l))

/-- The keep-condition of both motion loops: the pair is skipped when
`dt ≤ 0 or dt > max_dt`, so it is kept when `0 < dt ∧ dt ≤ max_dt`. -/
def validb (max_dt : ℚ) (p : Det × Det) : Bool :=
  decide (0 < p.2.timestamp - p.1.timestamp ∧ p.2.timestamp - p.1.timestamp ≤ max_dt)

/-- The consecutive pairs (after sorting) that both motion loops keep. -/
def validPairs (rows : List Det) (max_dt : ℚ) : List (Det × Det) :=
  (pairsOf (sortRows rows)).filter (validb max_dt)

/-- Pixel-space speed of a kept pair (`analyze_motion.py` lines 115–129):
`hypot(cx1-cx0, cy1-cy0) / dt` with `hypot` as an exact real square root. -/
noncomputable def speedPx (p : Det × Det) : ℝ :=
  let dx : ℚ := (p.2.x1 + p.2.x2) / 2 - (p.1.x1 + p.1.x2) / 2
  let dy : ℚ := (p.2.y1 + p.2.y2) / 2 - (p.1.y1 + p.1.y2) / 2
  Real.sqrt ((dx * dx + dy * dy : ℚ) : ℝ) / ((p.2.timestamp - p.1.timestamp : ℚ) : ℝ)

/-- Normalized speed of a kept pair, identical in both tools
(`analyze_motion.py` lines 124–130, `analyze_threat_motion.py` lines 113–122):
each center-displacement axis divided by the reference width/height, Euclidean
norm, divided by `dt`. -/
noncomputable def speedNorm (w h : ℚ) (p : Det × Det) : ℝ :=
  let dx : ℚ := ((p.2.x1 + p.2.x2) / 2 - (p.1.x1 + p.1.x2) / 2) / w
  let dy : ℚ := ((p.2.y1 + p.2.y2) / 2 - (p.1.y1 + p.1.y2) / 2) / h
  Real.sqrt ((dx * dx + dy * dy : ℚ) : ℝ) / ((p.2.timestamp - p.1.timestamp : ℚ) : ℝ)

namespace AnalyzeMotion

/-- Embeds `estimate_frame_size` from `tools/analyze_motion.py` (lines 41–52):
the bounding rectangle of all boxes, each side floored at `1`. -/
def estimate_frame_size : List Det → ℚ × ℚ
  | [] => (1, 1)
  | d :: rest =>
    let min_x := rest.foldl (fun m r => min m r.x1) d.x1
    let max_x := rest.foldl (fun m r => max m r.x2) d.x2
    let min_y := rest.foldl (fun m r => min m r.y1) d.y1
    let max_y := rest.foldl (fun m r => max m r.y2) d.y2
    (max 1 (max_x - min_x), max 1 (max_y - min_y))

/-- The running state of the pair loop of `analyze_motion`
(lines 86–136 of `tools/analyze_motion.py`). -/
structure MStatePx where
  pair_count : ℕ
  sum_speed_px : ℝ
  max_speed_px : ℝ
  sum_speed_norm : ℝ

/-- One iteration of the pair loop of `analyze_motion`: skip when
`dt ≤ 0 or dt > max_dt`, otherwise accumulate count, speed sums and the
pixel-speed maximum. -/
noncomputable def stepPx (w h max_dt : ℚ) (st : MStatePx) (p : Det × Det) : MStatePx :=
  let dt := p.2.timestamp - p.1.timestamp
  if dt ≤ 0 ∨ dt > max_dt then st
  else
    { pair_count := st.pair_count + 1
      sum_speed_px := st.sum_speed_px + speedPx p
      max_speed_px :=
        if speedPx p > st.max_speed_px then speedPx p else st.max_speed_px
      sum_speed_norm := st.sum_speed_norm + speedNorm w h p }

/-- Embeds the per-label stats dict of `analyze_motion`
(`tools/analyze_motion.py` lines 141–146): keys `pairs`, `mean_speed_px`,
`max_speed_px`, `mean_speed_norm` — there is no `max_speed_norm` key. -/
structure MotionEntryPx where
  pairs : ℝ
  mean_speed_px : ℝ
  max_speed_px : ℝ
  mean_speed_norm : ℝ

/-- Lookup into the stats dict of `analyze_motion`, exactly its four keys in
insertion order (`tools/analyze_motion.py` lines 141–146). -/
def MotionEntryPx.item (e : MotionEntryPx) (k : String) : Option ℝ :=
  List.lookup k
    [("pairs", e.pairs), ("mean_speed_px", e.mean_speed_px),
     ("max_speed_px", e.max_speed_px), ("mean_speed_norm", e.mean_speed_norm)]

/-- The body of the per-label loop of `analyze_motion`
(`tools/analyze_motion.py` lines 76–146): sort the label's rows, run the pair
loop from the zero state, and return `none` for a label with no kept pair,
else its stats entry with the derived means. -/
noncomputable def labelEntry (w h max_dt : ℚ) (rows : List Det)
    : Option MotionEntryPx :=
  let st := (pairsOf (sortRows rows)).foldl (stepPx w h max_dt) ⟨0, 0, 0, 0⟩
  if st.pair_count = 0 then none
  else some
    ⟨(st.pair_count : ℝ), st.sum_speed_px / (st.pair_count : ℝ),
     st.max_speed_px, st.sum_speed_norm / (st.pair_count : ℝ)⟩

/-- Embeds `analyze_motion` from `tools/analyze_motion.py` (lines 55–148) as
the insertion-ordered per-label stats dict it returns. -/
noncomputable def analyze_motion (dets : List Det) (max_dt : ℚ)
    : List (String × MotionEntryPx) :=
  if dets.isEmpty then []
  else
    let wh := estimate_frame_size dets
    (labelsInOrder dets).filterMap (fun l =>
      (labelEntry wh.1 wh.2 max_dt (rowsOf dets l)).map (fun e => (l, e)))

end AnalyzeMotion

namespace AnalyzeThreatMotion

/-- Embeds `estimate_frame_size` from `tools/analyze_threat_motion.py`
(lines 45–56), a verbatim copy of the one in `tools/analyze_motion.py`. -/
def estimate_frame_size : List Det → ℚ × ℚ
  | [] => (1, 1)
  | d :: rest =>
    let min_x := rest.foldl (fun m r => min m r.x1) d.x1
    let max_x := rest.foldl (fun m r => max m r.x2) d.x2
    let min_y := rest.foldl (fun m r => min m r.y1) d.y1
    let max_y := rest.foldl (fun m r => max m r.y2) d.y2
    (max 1 (max_x - min_x), max 1 (max_y - min_y))

/-- The running state of the pair loop of `compute_motion_per_label`
(lines 85–127 of `tools/analyze_threat_motion.py`). -/
structure MStateN where
  pair_count : ℕ
  sum_speed_norm : ℝ
  max_speed_norm : ℝ

/-- One iteration of the pair loop of `compute_motion_per_label`: skip when
`dt ≤ 0 or dt > max_dt`, otherwise accumulate count, normalized-speed sum and
maximum. -/
noncomputable def stepN (w h max_dt : ℚ) (st : MStateN) (p : Det × Det) : MStateN :=
  let dt := p.2.timestamp - p.1.timestamp
  if dt ≤ 0 ∨ dt > max_dt then st
  else
    { pair_count := st.pair_count + 1
      sum_speed_norm := st.sum_speed_norm + speedNorm w h p
      max_speed_norm :=
        if speedNorm w h p > st.max_speed_norm then speedNorm w h p
        else st.max_speed_norm }

/-- Embeds the per-label stats dict of `compute_motion_per_label`
(`tools/analyze_threat_motion.py` lines 132–136): keys `pairs`,
`mean_speed_norm`, `max_speed_norm`. -/
structure MotionEntryN where
  pairs : ℝ
  mean_speed_norm : ℝ
  max_speed_norm : ℝ

/-- Lookup into the stats dict of `compute_motion_per_label`, exactly its
three keys in insertion order (`tools/analyze_threat_motion.py` lines 132–136). -/
def MotionEntryN.item (e : MotionEntryN) (k : String) : Option ℝ :=
  List.lookup k
    [("pairs", e.pairs), ("mean_speed_norm", e.mean_speed_norm),
     ("max_speed_norm", e.max_speed_norm)]

/-- The body of the per-label loop of `compute_motion_per_label`
(`tools/analyze_threat_motion.py` lines 76–136): sort the label's rows, run
the pair loop from the zero state, and return `none` for a label with no kept
pair, else its stats entry with the derived mean. -/
noncomputable def labelEntry (w h max_dt : ℚ) (rows : List Det)
    : Option MotionEntryN :=
  let st := (pairsOf (sortRows rows)).foldl (stepN w h max_dt) ⟨0, 0, 0⟩
  if st.pair_count = 0 then none
  else some
    ⟨(st.pair_count : ℝ), st.sum_speed_norm / (st.pair_count : ℝ),
     st.max_speed_norm⟩

/-- Embeds `compute_motion_per_label` from `tools/analyze_threat_motion.py`
(lines 59–138) as the insertion-ordered per-label stats dict it returns. -/
noncomputable def compute_motion_per_label (dets : List Det) (max_dt : ℚ)
    : List (String × MotionEntryN) :=
  if dets.isEmpty then []
  else
    let wh := estimate_frame_size dets
    (labelsInOrder dets).filterMap (fun l =>
      (labelEntry wh.1 wh.2 max_dt (rowsOf dets l)).map (fun e => (l, e)))

/-- Embeds one row of the events CSV as read by `main` of
`tools/analyze_threat_motion.py` (lines 175–191): only the fields the
correlator uses. -/
structure EventRow where
  label : String
  count : ℕ
  mean_threat_score : ℚ
  dominant_threat_level : String

/-- The `threat_by_label` dict of `main` (lines 174–191): rows are written in
order and a later row with the same label overwrites an earlier one, so a
lookup sees the last matching row. -/
def threatLookup (events : List EventRow) (l : String) : Option EventRow :=
  (events.filter (fun r => decide (r.label = l))).getLast?

/-- Embeds one entry of the `combined` list of `main`
(`tools/analyze_threat_motion.py` lines 206–219). -/
structure CombinedEntry where
  label : String
  mean_threat : ℚ
  dominant_level : String
  count : ℕ
  pairs : ℝ
  mean_speed_norm : ℝ
  max_speed_norm : ℝ
  moving_threat_index : ℝ

/-- Embeds the join loop of `main` (lines 193–219): iterate the motion dict in
insertion order, skip labels with no threat row, and build the combined entry
with `moving_threat_index = mean_threat * mean_speed_norm`. -/
def combined (events : List EventRow) (motion : List (String × MotionEntryN))
    : List CombinedEntry :=
  motion.filterMap (fun q =>
    (threatLookup events q.1).map (fun t =>
      ⟨q.1, t.mean_threat_score, t.dominant_threat_level, t.count,
       q.2.pairs, q.2.mean_speed_norm, q.2.max_speed_norm,
       ((t.mean_threat_score : ℚ) : ℝ) * q.2.mean_speed_norm⟩))

/-- The descending comparison used by `sorted(combined, key=..., reverse=True)`
(line 225–227): `a` may precede `b` when `b`'s index is at most `a`'s. -/
def combinedGE (a b : CombinedEntry) : Prop :=
  b.moving_threat_index ≤ a.moving_threat_index

noncomputable instance : DecidableRel combinedGE :=
  fun _ _ => Real.decidableLE _ _

instance : IsTotal CombinedEntry combinedGE :=
  ⟨fun a b => le_total b.moving_threat_index a.moving_threat_index⟩

instance : IsTrans CombinedEntry combinedGE :=
  ⟨fun _ _ _ hab hbc => hbc.trans hab⟩

/-- Embeds the correlation stage of `main` (lines 193–227): the join followed
by the stable descending sort on `moving_threat_index` (a stable insertion
sort with the non-strict descending comparison reproduces Python's
`sorted(..., reverse=True)`). -/
noncomputable def correlate (events : List EventRow)
    (motion : List (String × MotionEntryN)) : List CombinedEntry :=
  List.insertionSort combinedGE (combined events motion)

end AnalyzeThreatMotion

/-- The keep-condition holds exactly when the pair's time gap is neither
non-positive nor beyond `max_dt`. -/
lemma validb_true_iff (max_dt : ℚ) (p : Det × Det) :
    validb max_dt p = true
      ↔ (0 < p.2.timestamp - p.1.timestamp
          ∧ p.2.timestamp - p.1.timestamp ≤ max_dt) := by
  simp [validb]

/-- A skipped pair is exactly one failing the keep-condition. -/
lemma validb_false_iff (max_dt : ℚ) (p : Det × Det) :
    validb max_dt p = false
      ↔ (p.2.timestamp - p.1.timestamp ≤ 0
          ∨ p.2.timestamp - p.1.timestamp > max_dt) := by
  unfold validb
  rw [decide_eq_false_iff_not, not_and_or, not_lt, not_le]

/-- A kept pair advances the `analyze_motion` loop state by one pair and its
two speeds. -/
lemma stepPx_valid (w h max_dt : ℚ) (st : AnalyzeMotion.MStatePx) (p : Det × Det)
    (hv : validb max_dt p = true) :
    AnalyzeMotion.stepPx w h max_dt st p =
      ⟨st.pair_count + 1, st.sum_speed_px + speedPx p,
       if speedPx p > st.max_speed_px then speedPx p else st.max_speed_px,
       st.sum_speed_norm + speedNorm w h p⟩ := by
  obtain ⟨h1, h2⟩ := (validb_true_iff max_dt p).mp hv
  unfold AnalyzeMotion.stepPx
  rw [if_neg (by push_neg; exact ⟨h1, h2⟩)]

/-- A skipped pair leaves the `analyze_motion` loop state unchanged. -/
lemma stepPx_invalid (w h max_dt : ℚ) (st : AnalyzeMotion.MStatePx) (p : Det × Det)
    (hv : validb max_dt p = false) :
    AnalyzeMotion.stepPx w h max_dt st p = st := by
  unfold AnalyzeMotion.stepPx
  rw [if_pos ((validb_false_iff max_dt p).mp hv)]

/-- A kept pair advances the `compute_motion_per_label` loop state by one pair
and its normalized speed. -/
lemma stepN_valid (w h max_dt : ℚ) (st : AnalyzeThreatMotion.MStateN) (p : Det × Det)
    (hv : validb max_dt p = true) :
    AnalyzeThreatMotion.stepN w h max_dt st p =
      ⟨st.pair_count + 1, st.sum_speed_norm + speedNorm w h p,
       if speedNorm w h p > st.max_speed_norm then speedNorm w h p
       else st.max_speed_norm⟩ := by
  obtain ⟨h1, h2⟩ := (validb_true_iff max_dt p).mp hv
  unfold AnalyzeThreatMotion.stepN
  rw [if_neg (by push_neg; exact ⟨h1, h2⟩)]

/-- A skipped pair leaves the `compute_motion_per_label` loop state unchanged. -/
lemma stepN_invalid (w h max_dt : ℚ) (st : AnalyzeThreatMotion.MStateN) (p : Det × Det)
    (hv : validb max_dt p = false) :
    AnalyzeThreatMotion.stepN w h max_dt st p = st := by
  unfold AnalyzeThreatMotion.stepN
  rw [if_pos ((validb_false_iff max_dt p).mp hv)]

/-- The `analyze_motion` pair loop counts exactly the kept pairs, and its two
speed sums range over exactly the kept pairs. -/
lemma foldPx_char (w h max_dt : ℚ) (ps : List (Det × Det)) :
    ∀ st : AnalyzeMotion.MStatePx,
      ((ps.foldl (AnalyzeMotion.stepPx w h max_dt) st).pair_count
          = st.pair_count + (ps.filter (validb max_dt)).length)
        ∧ ((ps.foldl (AnalyzeMotion.stepPx w h max_dt) st).sum_speed_px
          = st.sum_speed_px + ((ps.filter (validb max_dt)).map speedPx).sum)
        ∧ ((ps.foldl (AnalyzeMotion.stepPx w h max_dt) st).sum_speed_norm
          = st.sum_speed_norm
              + ((ps.filter (validb max_dt)).map (speedNorm w h)).sum) := by
  induction ps with
  | nil => intro st; simp
  | cons p ps ih =>
    intro st
    rw [List.foldl_cons]
    cases hv : validb max_dt p with
    | true =>
      rw [stepPx_valid w h max_dt st p hv, List.filter_cons_of_pos (by rw [hv])]
      obtain ⟨ih1, ih2, ih3⟩ := ih _
      refine ⟨?_, ?_, ?_⟩
      · rw [ih1]; simp; omega
      · rw [ih2]; simp; ring
      · rw [ih3]; simp; ring
    | false =>
      rw [stepPx_invalid w h max_dt st p hv,
        List.filter_cons_of_neg (by rw [hv]; exact Bool.false_ne_true)]
      exact ih st

/-- The `compute_motion_per_label` pair loop counts exactly the kept pairs,
and its speed sum ranges over exactly the kept pairs. -/
lemma foldN_char (w h max_dt : ℚ) (ps : List (Det × Det)) :
    ∀ st : AnalyzeThreatMotion.MStateN,
      ((ps.foldl (AnalyzeThreatMotion.stepN w h max_dt) st).pair_count
          = st.pair_count + (ps.filter (validb max_dt)).length)
        ∧ ((ps.foldl (AnalyzeThreatMotion.stepN w h max_dt) st).sum_speed_norm
          = st.sum_speed_norm
              + ((ps.filter (validb max_dt)).map (speedNorm w h)).sum) := by
  induction ps with
  | nil => intro st; simp
  | cons p ps ih =>
    intro st
    rw [List.foldl_cons]
    cases hv : validb max_dt p with
    | true =>
      rw [stepN_valid w h max_dt st p hv, List.filter_cons_of_pos (by rw [hv])]
      obtain ⟨ih1, ih2⟩ := ih _
      refine ⟨?_, ?_⟩
      · rw [ih1]; simp; omega
      · rw [ih2]; simp; ring
    | false =>
      rw [stepN_invalid w h max_dt st p hv,
        List.filter_cons_of_neg (by rw [hv]; exact Bool.false_ne_true)]
      exact ih st

/-- `analyze_motion` drops a label exactly when no consecutive pair of its
sorted rows is kept. -/
lemma labelEntryPx_none_iff (w h max_dt : ℚ) (rows : List Det) :
    AnalyzeMotion.labelEntry w h max_dt rows = none
      ↔ validPairs rows max_dt = [] := by
  have hpc := (foldPx_char w h max_dt (pairsOf (sortRows rows)) ⟨0, 0, 0, 0⟩).1
  simp only [AnalyzeMotion.labelEntry]
  rw [show ((pairsOf (sortRows rows)).foldl (AnalyzeMotion.stepPx w h max_dt)
      ⟨0, 0, 0, 0⟩).pair_count = (validPairs rows max_dt).length from by
    simpa [validPairs] using hpc]
  split_ifs with h0
  · simp [List.length_eq_zero.mp h0]
  · have : validPairs rows max_dt ≠ [] := fun hc => h0 (by rw [hc]; rfl)
    simp [this]

/-- The stats entry `analyze_motion` emits for a label counts exactly the kept
pairs and derives its means from sums over exactly the kept pairs. -/
lemma labelEntryPx_some (w h max_dt : ℚ) (rows : List Det)
    (e : AnalyzeMotion.MotionEntryPx)
    (he : AnalyzeMotion.labelEntry w h max_dt rows = some e) :
    validPairs rows max_dt ≠ []
      ∧ e.pairs = ((validPairs rows max_dt).length : ℝ)
      ∧ e.mean_speed_px = ((validPairs rows max_dt).map speedPx).sum
          / ((validPairs rows max_dt).length : ℝ)
      ∧ e.mean_speed_norm = ((validPairs rows max_dt).map (speedNorm w h)).sum
          / ((validPairs rows max_dt).length : ℝ) := by
  obtain ⟨hc1, hc2, hc3⟩ := foldPx_char w h max_dt (pairsOf (sortRows rows)) ⟨0, 0, 0, 0⟩
  simp only [AnalyzeMotion.labelEntry] at he
  by_cases h0 : ((pairsOf (sortRows rows)).foldl (AnalyzeMotion.stepPx w h max_dt)
      ⟨0, 0, 0, 0⟩).pair_count = 0
  · rw [if_pos h0] at he
    exact absurd he (by simp)
  · rw [if_neg h0] at he
    have hne : validPairs rows max_dt ≠ [] := by
      intro hc
      apply h0
      rw [hc1]
      simp only [validPairs] at hc
      simp [hc]
    obtain rfl : _ = e := Option.some_injective _ he
    refine ⟨hne, ?_, ?_, ?_⟩ <;>
      simp only [hc1, hc2, hc3, validPairs] <;> norm_num

/-- `compute_motion_per_label` drops a label exactly when no consecutive pair
of its sorted rows is kept. -/
lemma labelEntryN_none_iff (w h max_dt : ℚ) (rows : List Det) :
    AnalyzeThreatMotion.labelEntry w h max_dt rows = none
      ↔ validPairs rows max_dt = [] := by
  have hpc := (foldN_char w h max_dt (pairsOf (sortRows rows)) ⟨0, 0, 0⟩).1
  simp only [AnalyzeThreatMotion.labelEntry]
  rw [show ((pairsOf (sortRows rows)).foldl (AnalyzeThreatMotion.stepN w h max_dt)
      ⟨0, 0, 0⟩).pair_count = (validPairs rows max_dt).length from by
    simpa [validPairs] using hpc]
  split_ifs with h0
  · simp [List.length_eq_zero.mp h0]
  · have : validPairs rows max_dt ≠ [] := fun hc => h0 (by rw [hc]; rfl)
    simp [this]

/-- The stats entry `compute_motion_per_label` emits for a label counts
exactly the kept pairs and derives its mean from the sum over exactly the
kept pairs. -/
lemma labelEntryN_some (w h max_dt : ℚ) (rows : List Det)
    (e : AnalyzeThreatMotion.MotionEntryN)
    (he : AnalyzeThreatMotion.labelEntry w h max_dt rows = some e) :
    validPairs rows max_dt ≠ []
      ∧ e.pairs = ((validPairs rows max_dt).length : ℝ)
      ∧ e.mean_speed_norm = ((validPairs rows max_dt).map (speedNorm w h)).sum
          / ((validPairs rows max_dt).length : ℝ) := by
  obtain ⟨hc1, hc2⟩ := foldN_char w h max_dt (pairsOf (sortRows rows)) ⟨0, 0, 0⟩
  simp only [AnalyzeThreatMotion.labelEntry] at he
  by_cases h0 : ((pairsOf (sortRows rows)).foldl (AnalyzeThreatMotion.stepN w h max_dt)
      ⟨0, 0, 0⟩).pair_count = 0
  · rw [if_pos h0] at he
    exact absurd he (by simp)
  · rw [if_neg h0] at he
    have hne : validPairs rows max_dt ≠ [] := by
      intro hc
      apply h0
      rw [hc1]
      simp only [validPairs] at hc
      simp [hc]
    obtain rfl : _ = e := Option.some_injective _ he
    refine ⟨hne, ?_, ?_⟩ <;>
      simp only [hc1, hc2, validPairs] <;> norm_num

/-- Membership in the `analyze_motion` result, unpacked. -/
lemma analyze_motion_mem_iff (dets : List Det) (max_dt : ℚ) (l : String)
    (e : AnalyzeMotion.MotionEntryPx) :
    (l, e) ∈ AnalyzeMotion.analyze_motion dets max_dt
      ↔ (dets ≠ [] ∧ l ∈ labelsInOrder dets
          ∧ AnalyzeMotion.labelEntry (AnalyzeMotion.estimate_frame_size dets).1
              (AnalyzeMotion.estimate_frame_size dets).2 max_dt (rowsOf dets l)
            = some e) := by
  unfold AnalyzeMotion.analyze_motion
  by_cases hd : dets.isEmpty
  · rw [if_pos hd]
    simp [List.isEmpty_iff.mp hd]
  · rw [if_neg hd]
    have hne : dets ≠ [] := by simpa [List.isEmpty_iff] using hd
    simp only [List.mem_filterMap, hne, ne_eq, not_false_eq_true, true_and]
    constructor
    · rintro ⟨a, ha, hfa⟩
      obtain ⟨e2, he2, heq⟩ := Option.map_eq_some'.mp hfa
      injection heq with h1 h2
      subst h1
      subst h2
      exact ⟨ha, he2⟩
    · rintro ⟨hl, hle⟩
      exact ⟨l, hl, by rw [hle]; rfl⟩

/-- Membership in the `compute_motion_per_label` result, unpacked. -/
lemma compute_motion_mem_iff (dets : List Det) (max_dt : ℚ) (l : String)
    (e : AnalyzeThreatMotion.MotionEntryN) :
    (l, e) ∈ AnalyzeThreatMotion.compute_motion_per_label dets max_dt
      ↔ (dets ≠ [] ∧ l ∈ labelsInOrder dets
          ∧ AnalyzeThreatMotion.labelEntry
              (AnalyzeThreatMotion.estimate_frame_size dets).1
              (AnalyzeThreatMotion.estimate_frame_size dets).2 max_dt (rowsOf dets l)
            = some e) := by
  unfold AnalyzeThreatMotion.compute_motion_per_label
  by_cases hd : dets.isEmpty
  · rw [if_pos hd]
    simp [List.isEmpty_iff.mp hd]
  · rw [if_neg hd]
    have hne : dets ≠ [] := by simpa [List.isEmpty_iff] using hd
    simp only [List.mem_filterMap, hne, ne_eq, not_false_eq_true, true_and]
    constructor
    · rintro ⟨a, ha, hfa⟩
      obtain ⟨e2, he2, heq⟩ := Option.map_eq_some'.mp hfa
      injection heq with h1 h2
      subst h1
      subst h2
      exact ⟨ha, he2⟩
    · rintro ⟨hl, hle⟩
      exact ⟨l, hl, by rw [hle]; rfl⟩

/-- The labels `analyze_motion` reports: those with at least one kept pair,
in first-occurrence order. -/
lemma analyze_motion_keys (dets : List Det) (max_dt : ℚ) :
    (AnalyzeMotion.analyze_motion dets max_dt).map Prod.fst
      = (labelsInOrder dets).filter
          (fun l => decide (validPairs (rowsOf dets l) max_dt ≠ [])) := by
  by_cases hd : dets.isEmpty
  · rw [List.isEmpty_iff.mp hd]
    rfl
  · simp only [AnalyzeMotion.analyze_motion, if_neg hd]
    generalize labelsInOrder dets = ls
    induction ls with
    | nil => rfl
    | cons a ls ih =>
      cases hle : AnalyzeMotion.labelEntry
          (AnalyzeMotion.estimate_frame_size dets).1
          (AnalyzeMotion.estimate_frame_size dets).2 max_dt (rowsOf dets a) with
      | none =>
        have hvp := (labelEntryPx_none_iff _ _ _ _).mp hle
        simp [List.filterMap_cons, hle, hvp, ih]
      | some e =>
        have hvp := (labelEntryPx_some _ _ _ _ e hle).1
        simp [List.filterMap_cons, hle, hvp, ih]

/-- The labels `compute_motion_per_label` reports: those with at least one
kept pair, in first-occurrence order. -/
lemma compute_motion_keys (dets : List Det) (max_dt : ℚ) :
    (AnalyzeThreatMotion.compute_motion_per_label dets max_dt).map Prod.fst
      = (labelsInOrder dets).filter
          (fun l => decide (validPairs (rowsOf dets l) max_dt ≠ [])) := by
  by_cases hd : dets.isEmpty
  · rw [List.isEmpty_iff.mp hd]
    rfl
  · simp only [AnalyzeThreatMotion.compute_motion_per_label, if_neg hd]
    generalize labelsInOrder dets = ls
    induction ls with
    | nil => rfl
    | cons a ls ih =>
      cases hle : AnalyzeThreatMotion.labelEntry
          (AnalyzeThreatMotion.estimate_frame_size dets).1
          (AnalyzeThreatMotion.estimate_frame_size dets).2 max_dt (rowsOf dets a) with
      | none =>
        have hvp := (labelEntryN_none_iff _ _ _ _).mp hle
        simp [List.filterMap_cons, hle, hvp, ih]
      | some e =>
        have hvp := (labelEntryN_some _ _ _ _ e hle).1
        simp [List.filterMap_cons, hle, hvp, ih]

/-- The two tools' verbatim-identical `estimate_frame_size` copies agree. -/
lemma estimate_frame_size_eq (dets : List Det) :
    AnalyzeThreatMotion.estimate_frame_size dets
      = AnalyzeMotion.estimate_frame_size dets := by
  cases dets <;> rfl

/-- C7: in both motion estimators a consecutive pair (after sorting by
timestamp then frame index) with `dt ≤ 0` or `dt > max_dt` leaves the loop
state untouched, every reported entry counts exactly the kept pairs with
means over exactly the kept pairs, and a label with zero kept pairs is
entirely absent from the result. -/
theorem C7_motion_pair_filtering :
    ∀ (dets : List Det) (max_dt : ℚ) (l : String),
      (∀ (w h : ℚ) (st : AnalyzeMotion.MStatePx) (p : Det × Det),
        (p.2.timestamp - p.1.timestamp ≤ 0 ∨ p.2.timestamp - p.1.timestamp > max_dt)
          → AnalyzeMotion.stepPx w h max_dt st p = st)
      ∧ (∀ (w h : ℚ) (st : AnalyzeThreatMotion.MStateN) (p : Det × Det),
        (p.2.timestamp - p.1.timestamp ≤ 0 ∨ p.2.timestamp - p.1.timestamp > max_dt)
          → AnalyzeThreatMotion.stepN w h max_dt st p = st)
      ∧ (∀ e, (l, e) ∈ AnalyzeMotion.analyze_motion dets max_dt →
          e.pairs = ((validPairs (rowsOf dets l) max_dt).length : ℝ)
            ∧ e.mean_speed_px = ((validPairs (rowsOf dets l) max_dt).map speedPx).sum
                / ((validPairs (rowsOf dets l) max_dt).length : ℝ)
            ∧ e.mean_speed_norm = ((validPairs (rowsOf dets l) max_dt).map
                  (speedNorm (AnalyzeMotion.estimate_frame_size dets).1
                    (AnalyzeMotion.estimate_frame_size dets).2)).sum
                / ((validPairs (rowsOf dets l) max_dt).length : ℝ))
      ∧ (validPairs (rowsOf dets l) max_dt = []
          → ∀ e, (l, e) ∉ AnalyzeMotion.analyze_motion dets max_dt)
      ∧ (∀ e, (l, e) ∈ AnalyzeThreatMotion.compute_motion_per_label dets max_dt →
          e.pairs = ((validPairs (rowsOf dets l) max_dt).length : ℝ)
            ∧ e.mean_speed_norm = ((validPairs (rowsOf dets l) max_dt).map
                  (speedNorm (AnalyzeThreatMotion.estimate_frame_size dets).1
                    (AnalyzeThreatMotion.estimate_frame_size dets).2)).sum
                / ((validPairs (rowsOf dets l) max_dt).length : ℝ))
      ∧ (validPairs (rowsOf dets l) max_dt = []
          → ∀ e, (l, e) ∉ AnalyzeThreatMotion.compute_motion_per_label dets max_dt) := by
  intro dets max_dt l
  refine ⟨?_, ?_, ?_, ?_, ?_, ?_⟩
  · intro w h st p hp
    exact stepPx_invalid w h max_dt st p ((validb_false_iff max_dt p).mpr hp)
  · intro w h st p hp
    exact stepN_invalid w h max_dt st p ((validb_false_iff max_dt p).mpr hp)
  · intro e he
    obtain ⟨-, -, hle⟩ := (analyze_motion_mem_iff dets max_dt l e).mp he
    obtain ⟨-, h1, h2, h3⟩ := labelEntryPx_some _ _ _ _ e hle
    exact ⟨h1, h2, h3⟩
  · intro hvp e he
    obtain ⟨-, -, hle⟩ := (analyze_motion_mem_iff dets max_dt l e).mp he
    rw [(labelEntryPx_none_iff _ _ _ _).mpr hvp] at hle
    exact Option.noConfusion hle
  · intro e he
    obtain ⟨-, -, hle⟩ := (compute_motion_mem_iff dets max_dt l e).mp he
    obtain ⟨-, h1, h2⟩ := labelEntryN_some _ _ _ _ e hle
    exact ⟨h1, h2⟩
  · intro hvp e he
    obtain ⟨-, -, hle⟩ := (compute_motion_mem_iff dets max_dt l e).mp he
    rw [(labelEntryN_none_iff _ _ _ _).mpr hvp] at hle
    exact Option.noConfusion hle

/-- C9 amended: the two motion estimators report the same labels in the same
order, and agree per label on the pair count and the mean normalized speed;
only `analyze_motion`'s extra pixel-space stats differ, and it has no
`max_speed_norm` output at all. -/
theorem C9_amended :
    ∀ (dets : List Det) (max_dt : ℚ),
      (AnalyzeMotion.analyze_motion dets max_dt).map Prod.fst
          = (AnalyzeThreatMotion.compute_motion_per_label dets max_dt).map Prod.fst
        ∧ ∀ (l : String) (e1 : AnalyzeMotion.MotionEntryPx)
            (e2 : AnalyzeThreatMotion.MotionEntryN),
            (l, e1) ∈ AnalyzeMotion.analyze_motion dets max_dt
              → (l, e2) ∈ AnalyzeThreatMotion.compute_motion_per_label dets max_dt
              → e1.pairs = e2.pairs ∧ e1.mean_speed_norm = e2.mean_speed_norm := by
  intro dets max_dt
  constructor
  · rw [analyze_motion_keys, compute_motion_keys]
  · intro l e1 e2 h1 h2
    obtain ⟨-, -, hle1⟩ := (analyze_motion_mem_iff dets max_dt l e1).mp h1
    obtain ⟨-, -, hle2⟩ := (compute_motion_mem_iff dets max_dt l e2).mp h2
    obtain ⟨-, hp1, -, hn1⟩ := labelEntryPx_some _ _ _ _ e1 hle1
    obtain ⟨-, hp2, hn2⟩ := labelEntryN_some _ _ _ _ e2 hle2
    rw [estimate_frame_size_eq] at hn2
    exact ⟨hp1.trans hp2.symm, hn1.trans hn2.symm⟩

/-- A concrete two-detection stream of one label with one kept pair, used to
compare the two motion estimators' output dicts. -/
def c9dets : List Det :=
  [⟨0, 0, 0, 0, 10, 10, 9/10, "car", 100, 1/100, 1/2, "medium"⟩,
   ⟨1, 1/2, 0, 0, 10, 10, 9/10, "car", 100, 1/100, 1/2, "medium"⟩]

/-- C9 counterexample: on a concrete stream both estimators report label
`"car"`, but the `analyze_motion` stats dict has no `max_speed_norm` key at
all while the `compute_motion_per_label` dict does — so the two results do
not agree on `max_speed_norm`. -/
theorem C9_counterexample :
    ((AnalyzeMotion.analyze_motion c9dets 1).lookup "car").map
        (fun e => e.item "max_speed_norm") = some none
      ∧ ((AnalyzeThreatMotion.compute_motion_per_label c9dets 1).lookup "car").map
        (fun e => (e.item "max_speed_norm").isSome) = some true := by
  constructor <;>
    norm_num [AnalyzeMotion.analyze_motion, AnalyzeThreatMotion.compute_motion_per_label,
      AnalyzeMotion.labelEntry, AnalyzeThreatMotion.labelEntry,
      AnalyzeMotion.stepPx, AnalyzeThreatMotion.stepN, c9dets, labelsInOrder, rowsOf,
      sortRows, pairsOf, List.insertionSort, List.orderedInsert, rowLe,
      AnalyzeMotion.estimate_frame_size, AnalyzeThreatMotion.estimate_frame_size,
      AnalyzeMotion.MotionEntryPx.item, AnalyzeThreatMotion.MotionEntryN.item,
      List.lookup, List.filterMap, List.filter, List.foldl,
      show (("max_speed_norm" : String) == "pairs") = false from by decide,
      show (("max_speed_norm" : String) == "mean_speed_px") = false from by decide,
      show (("max_speed_norm" : String) == "max_speed_px") = false from by decide,
      show (("max_speed_norm" : String) == "mean_speed_norm") = false from by decide,
      show (("max_speed_norm" : String) == "max_speed_norm") = true from by decide]

/-- The labels of the correlator's join, in motion-dict order: the motion
labels that have a threat row. -/
lemma combined_labels (events : List AnalyzeThreatMotion.EventRow)
    (motion : List (String × AnalyzeThreatMotion.MotionEntryN)) :
    (AnalyzeThreatMotion.combined events motion).map
        AnalyzeThreatMotion.CombinedEntry.label
      = (motion.map Prod.fst).filter
          (fun l => (AnalyzeThreatMotion.threatLookup events l).isSome) := by
  induction motion with
  | nil => rfl
  | cons q motion ih =>
    cases ht : AnalyzeThreatMotion.threatLookup events q.1 with
    | none =>
      simp [AnalyzeThreatMotion.combined, List.filterMap_cons, ht] at ih ⊢
      exact ih
    | some t =>
      simp [AnalyzeThreatMotion.combined, List.filterMap_cons, ht] at ih ⊢
      exact ih

/-- Every entry the correlator's join builds carries
`moving_threat_index = mean_threat * mean_speed_norm`. -/
lemma combined_index (events : List AnalyzeThreatMotion.EventRow)
    (motion : List (String × AnalyzeThreatMotion.MotionEntryN))
    (c : AnalyzeThreatMotion.CombinedEntry)
    (hc : c ∈ AnalyzeThreatMotion.combined events motion) :
    c.moving_threat_index = (c.mean_threat : ℝ) * c.mean_speed_norm := by
  obtain ⟨q, -, hq⟩ := List.mem_filterMap.mp hc
  obtain ⟨t, -, heq⟩ := Option.map_eq_some'.mp hq
  rw [heq.symm]

/-- C3 amended: the correlator emits exactly one entry per label present in
both inputs (none for a label present in only one), each entry's
`moving_threat_index` is `mean_threat_score * mean_speed_norm`, and the output
is sorted by `moving_threat_index` descending — ties keep the motion input's
(insertion) order, not label-ascending order. -/
theorem C3_correlate :
    ∀ (events : List AnalyzeThreatMotion.EventRow)
      (motion : List (String × AnalyzeThreatMotion.MotionEntryN)),
      (motion.map Prod.fst).Nodup →
        (∀ l : String,
          ((AnalyzeThreatMotion.correlate events motion).map
              AnalyzeThreatMotion.CombinedEntry.label).count l
            = if l ∈ motion.map Prod.fst
                  ∧ (AnalyzeThreatMotion.threatLookup events l).isSome
              then 1 else 0)
        ∧ (∀ c ∈ AnalyzeThreatMotion.correlate events motion,
            c.moving_threat_index = (c.mean_threat : ℝ) * c.mean_speed_norm)
        ∧ List.Pairwise AnalyzeThreatMotion.combinedGE
            (AnalyzeThreatMotion.correlate events motion) := by
  intro events motion hnd
  have hperm : List.Perm
      ((AnalyzeThreatMotion.correlate events motion).map
        AnalyzeThreatMotion.CombinedEntry.label)
      ((AnalyzeThreatMotion.combined events motion).map
        AnalyzeThreatMotion.CombinedEntry.label) :=
    (List.perm_insertionSort AnalyzeThreatMotion.combinedGE _).map _
  refine ⟨?_, ?_, ?_⟩
  · intro l
    rw [hperm.count_eq, combined_labels]
    by_cases hm : l ∈ (motion.map Prod.fst).filter
        (fun l => (AnalyzeThreatMotion.threatLookup events l).isSome)
    · rw [List.count_eq_one_of_mem (hnd.filter _) hm]
      obtain ⟨h1, h2⟩ := List.mem_filter.mp hm
      rw [if_pos ⟨h1, by simpa using h2⟩]
    · rw [List.count_eq_zero_of_not_mem hm]
      rw [if_neg (fun hc => hm (List.mem_filter.mpr ⟨hc.1, by simpa using hc.2⟩))]
  · intro c hc
    exact combined_index events motion c
      ((List.perm_insertionSort AnalyzeThreatMotion.combinedGE _).subset hc)
  · exact List.sorted_insertionSort AnalyzeThreatMotion.combinedGE _

/-- One-label concrete correlator inputs used to instantiate the amended
correlator theorem. -/
def c3wEvents : List AnalyzeThreatMotion.EventRow := [⟨"car", 1, 1/2, "low"⟩]

/-- One-label concrete motion summary used to instantiate the amended
correlator theorem. -/
def c3wMotion : List (String × AnalyzeThreatMotion.MotionEntryN) :=
  [("car", ⟨1, 0, 0⟩)]

/-- C3 witness: on a one-label pair of inputs with distinct motion keys the
correlator emits exactly one `"car"` entry. -/
theorem C3_correlate_witness :
    ((AnalyzeThreatMotion.correlate c3wEvents c3wMotion).map
        AnalyzeThreatMotion.CombinedEntry.label).count "car"
      = if "car" ∈ c3wMotion.map Prod.fst
            ∧ (AnalyzeThreatMotion.threatLookup c3wEvents "car").isSome
        then 1 else 0 :=
  (C3_correlate c3wEvents c3wMotion (by simp [c3wMotion])).1 "car"

/-- Two-label correlator inputs whose moving-threat indices tie: the motion
dict lists `"truck"` before `"car"`. -/
def c3events : List AnalyzeThreatMotion.EventRow :=
  [⟨"truck", 1, 1/2, "low"⟩, ⟨"car", 1, 1/2, "low"⟩]

/-- The motion side of the tie counterexample. -/
def c3motion : List (String × AnalyzeThreatMotion.MotionEntryN) :=
  [("truck", ⟨1, 0, 0⟩), ("car", ⟨1, 0, 0⟩)]

/-- C3 counterexample: with two labels tied on `moving_threat_index`, the
correlator keeps the motion input's order `["truck", "car"]`, which violates
the claimed label_ascending tie-break (that would demand `"car"` first). -/
theorem C3_counterexample :
    (AnalyzeThreatMotion.correlate c3events c3motion).map
        AnalyzeThreatMotion.CombinedEntry.label = ["truck", "car"]
      ∧ ¬ List.Pairwise
          (fun a b => a.moving_threat_index > b.moving_threat_index
            ∨ (a.moving_threat_index = b.moving_threat_index ∧ a.label < b.label))
          (AnalyzeThreatMotion.correlate c3events c3motion) := by
  have hcomb : AnalyzeThreatMotion.combined c3events c3motion
      = [⟨"truck", 1/2, "low", 1, 1, 0, 0, ((1/2 : ℚ) : ℝ) * 0⟩,
         ⟨"car", 1/2, "low", 1, 1, 0, 0, ((1/2 : ℚ) : ℝ) * 0⟩] := rfl
  have hge : AnalyzeThreatMotion.combinedGE
      (⟨"truck", 1/2, "low", 1, 1, 0, 0, ((1/2 : ℚ) : ℝ) * 0⟩ :
        AnalyzeThreatMotion.CombinedEntry)
      ⟨"car", 1/2, "low", 1, 1, 0, 0, ((1/2 : ℚ) : ℝ) * 0⟩ := le_refl _
  have hsort : AnalyzeThreatMotion.correlate c3events c3motion
      = [⟨"truck", 1/2, "low", 1, 1, 0, 0, ((1/2 : ℚ) : ℝ) * 0⟩,
         ⟨"car", 1/2, "low", 1, 1, 0, 0, ((1/2 : ℚ) : ℝ) * 0⟩] := by
    unfold AnalyzeThreatMotion.correlate
    rw [hcomb]
    simp only [List.insertionSort, List.orderedInsert]
    rw [if_pos hge]
  constructor
  · rw [hsort]
    rfl
  · rw [hsort]
    intro hpw
    have := (List.pairwise_cons.mp hpw).1 _ (List.mem_singleton.mpr rfl)
    rcases this with hlt | ⟨-, hlab⟩
    · exact absurd hlt (lt_irrefl _)
    · exact absurd hlab (by rw [String.lt_iff_toList_lt]; decide)

/-- C10: every stage maps an empty input to a well-formed empty result: the
aggregator's stats and summary rows, both motion estimators, and the
correlator with either side empty. -/
theorem C10_empty_inputs :
    save_events_summary [] = []
      ∧ aggregate [] = []
      ∧ (∀ max_dt : ℚ, AnalyzeMotion.analyze_motion [] max_dt = [])
      ∧ (∀ max_dt : ℚ, AnalyzeThreatMotion.compute_motion_per_label [] max_dt = [])
      ∧ (∀ events : List AnalyzeThreatMotion.EventRow,
          AnalyzeThreatMotion.correlate events [] = [])
      ∧ (∀ motion : List (String × AnalyzeThreatMotion.MotionEntryN),
          AnalyzeThreatMotion.correlate [] motion = []) := by
  refine ⟨rfl, rfl, fun _ => rfl, fun _ => rfl, fun _ => rfl, fun motion => ?_⟩
  have h0 : AnalyzeThreatMotion.combined [] motion = [] := by
    simp [AnalyzeThreatMotion.combined, AnalyzeThreatMotion.threatLookup]
  unfold AnalyzeThreatMotion.correlate
  rw [h0]
  rfl

end SDD
